import Mathlib

/-!
Verification of the rule-evaluation core of `listgen.py` (jellyfin-mediabar-listgen).

The Python source is shallowly embedded: every definition below mirrors one
function or code section of `src/listgen.py`.  Python exceptions are modelled
with `Except Err`; Python `float` values that the code builds from decimal
literals are modelled as exact rationals (`Rat`); Python `set` values, whose
iteration order is unspecified, are modelled as duplicate-free lists in
first-occurrence order (all properties proved about them are order-insensitive
or use inputs on which the order is irrelevant to the final result).
-/

namespace Listgen

/-- The Python exception classes raised by the embedded code. -/
inductive Err where
  | syntaxError
  | typeError
  | valueError
  | lookupError
  | indexError
deriving DecidableEq, Repr

instance [DecidableEq ε] [DecidableEq α] : DecidableEq (Except ε α)
  | .ok a, .ok b => decidable_of_iff (a = b) (by simp)
  | .error a, .error b => decidable_of_iff (a = b) (by simp)
  | .ok _, .error _ => isFalse (fun h => by cases h)
  | .error _, .ok _ => isFalse (fun h => by cases h)

/-- A calendar date/datetime, compared lexicographically like Python
`datetime` values (`isoparse` results are stored already parsed). -/
structure PyDate where
  year : Int
  month : Int
  day : Int
deriving DecidableEq, Repr

/-- Python `<=` on `datetime`: lexicographic on (year, month, day). -/
def PyDate.le (a b : PyDate) : Bool :=
  decide (a.year < b.year) ||
    (a.year == b.year &&
      (decide (a.month < b.month) ||
        (a.month == b.month && decide (a.day ≤ b.day))))

/-- A dynamically typed Python value as it occurs in interval bounds and
comparisons: numeric (`float`/`int`), string, or datetime. -/
inductive Value where
  | num (q : Rat)
  | str (s : String)
  | date (d : PyDate)
deriving DecidableEq, Repr

/-- Python `<` on strings: lexicographic comparison of code points. -/
def strLT : List Char → List Char → Bool
  | [], [] => false
  | [], _ :: _ => true
  | _ :: _, [] => false
  | a :: as, b :: bs => if a < b then true else if b < a then false else strLT as bs

/-- Python `a <= b`.  Comparing values of different types raises `TypeError`. -/
def vle : Value → Value → Except Err Bool
  | .num a, .num b => .ok (decide (a ≤ b))
  | .str a, .str b => .ok (!strLT b.toList a.toList)
  | .date a, .date b => .ok (PyDate.le a b)
  | _, _ => .error .typeError

/-- Python `a > b`.  Comparing values of different types raises `TypeError`. -/
def vgt : Value → Value → Except Err Bool
  | .num a, .num b => .ok (decide (b < a))
  | .str a, .str b => .ok (strLT b.toList a.toList)
  | .date a, .date b => .ok (!PyDate.le a b)
  | _, _ => .error .typeError

/-- Python `a == b`: cross-type equality is `False`, never an error. -/
def veq : Value → Value → Bool
  | .num a, .num b => a == b
  | .str a, .str b => a == b
  | .date a, .date b => a == b
  | _, _ => false

/-- Helper for `dedupFirst`: drops the elements already in `seen`. -/
def dedupAux [DecidableEq α] (seen : List α) : List α → List α
  | [] => []
  | x :: xs => if x ∈ seen then dedupAux seen xs else x :: dedupAux (x :: seen) xs

/-- Python `set(l)` / order-preserving deduplication: keeps the first
occurrence of each element (the canonical iteration order chosen for the
model, cf. file header). -/
def dedupFirst [DecidableEq α] (l : List α) : List α := dedupAux [] l

/-- Splits a character list at every occurrence of `sep` (like
`str.split(sep)` for a one-character separator). -/
def splitChar (sep : Char) : List Char → List (List Char)
  | [] => [[]]
  | c :: rest =>
    match splitChar sep rest with
    | t :: ts => if c = sep then [] :: t :: ts else (c :: t) :: ts
    | [] => [[]]

/-- Drops leading spaces (the regexes in the source use a literal `' '`). -/
def trimSpacesL (s : List Char) : List Char := s.dropWhile (· = ' ')

/-- Drops trailing spaces. -/
def trimSpacesR (s : List Char) : List Char := (trimSpacesL s.reverse).reverse

/-- `re.split(" *<sep> *", s)`: split on `sep`, where each separator also
consumes the spaces adjacent to it.  The first token keeps its leading
spaces and the last token keeps its trailing spaces. -/
def pySplitReAux : List (List Char) → List String
  | [] => []
  | [t] => [⟨trimSpacesL t⟩]
  | t :: ts => String.mk (trimSpacesL (trimSpacesR t)) :: pySplitReAux ts

/-- `re.split(" *<sep> *", s)` on a whole string. -/
def pySplitRe (sep : Char) (s : String) : List String :=
  match splitChar sep s.toList with
  | [] => []
  | [t] => [⟨t⟩]
  | t :: ts => String.mk (trimSpacesR t) :: pySplitReAux ts

/-- `Toolkit.parse_list` on a string argument: `re.split(r" *, *", value)`. -/
def pyParseList (s : String) : List String := pySplitRe ',' s

/-- Python `str.lower()` on the ASCII range (all strings the source
lowercases are configuration tokens). -/
def pyToLower (s : String) : String := ⟨s.toList.map Char.toLower⟩

/-- `[0-9]` as a character predicate. -/
def isDigitCh (c : Char) : Bool := decide ('0' ≤ c) && decide (c ≤ '9')

/-- `[a-z]` as a character predicate. -/
def isLowerCh (c : Char) : Bool := decide ('a' ≤ c) && decide (c ≤ 'z')

/-- Numeric value of a digit string. -/
def natOfDigits (l : List Char) : Nat := l.foldl (fun a c => a * 10 + (c.toNat - 48)) 0

/-- `re.fullmatch(r"[0-9]+(\.[0-9]+)?", tok)`. -/
def isNumericTok (l : List Char) : Bool :=
  let ds := l.takeWhile isDigitCh
  let rest := l.dropWhile isDigitCh
  !ds.isEmpty &&
    (rest.isEmpty ||
      (match rest with
       | '.' :: fs => !fs.isEmpty && fs.all isDigitCh
       | _ => false))

/-- `re.fullmatch(r"[a-z]+", tok)`. -/
def isAlphaTok (l : List Char) : Bool := !l.isEmpty && l.all isLowerCh

/-- `re.fullmatch(r"[0-9]{4}_[0-9]{2}_[0-9]{2}", tok)` — syntactic only. -/
def isDateTok (l : List Char) : Bool :=
  match l with
  | [a, b, c, d, u1, e, f, u2, g, h] =>
    [a, b, c, d, e, f, g, h].all isDigitCh && u1 = '_' && u2 = '_'
  | _ => false

/-- The exact rational denoted by a decimal token matched by the numeric
pattern (Python builds a `float` from it; the claims only exercise values on
which the two agree). -/
def ratOfTok (l : List Char) : Rat :=
  let ds := l.takeWhile isDigitCh
  match l.dropWhile isDigitCh with
  | '.' :: fs => (natOfDigits ds : Rat) + (natOfDigits fs : Rat) / ((10 : Rat) ^ fs.length)
  | _ => (natOfDigits ds : Rat)

/-- The parsed `Interval` value: interval type plus domain-typed bounds, as
established by `Interval.__parse_interval`. -/
inductive Interval where
  | closed (lower upper : Value)
  | leftOpen (upper : Value)
  | rightOpen (lower : Value)
  | fullyOpen
  | exactly (lower : Value)
deriving DecidableEq, Repr

/-- `Interval.__parse_interval`.

The four match-arm shapes are checked on the raw text exactly as the source's
`re.fullmatch` calls do (`any = [^-]+`, `sep = " *- *"`), then the bound
tokens are obtained by `re.split(" *- *", text)`.

Two behaviours of the source are reproduced faithfully:
* for an `exact` interval the split yields a single token, so `upper_bound`
  is `None` and the eager `re.fullmatch(pattern, None)` call at line 217 of
  `listgen.py` raises `TypeError`;
* in every date branch the source calls `dt.datetime.strftime(token, ...)`
  with the token — a `str` — as the receiver, which raises `TypeError`
  (lines 242/243, 259 and 272), so no date-domain interval is ever built. -/
def parseInterval (s : String) : Except Err Interval :=
  match splitChar '-' s.toList with
  | [tok] =>
    if tok.isEmpty then .error .syntaxError
    else .error .typeError
  | [pre, suf] =>
    let lo := trimSpacesR pre
    let hi := trimSpacesL suf
    if !pre.isEmpty && !suf.isEmpty then
      -- closed
      if isNumericTok lo then
        if isNumericTok hi then .ok (.closed (.num (ratOfTok lo)) (.num (ratOfTok hi)))
        else .error .typeError
      else if isAlphaTok lo then
        if isAlphaTok hi then .ok (.closed (.str ⟨lo⟩) (.str ⟨hi⟩))
        else .error .typeError
      else if isDateTok lo then .error .typeError
      else .error .typeError
    else if pre.all (· = ' ') && !suf.isEmpty then
      -- left-open
      if isNumericTok hi then .ok (.leftOpen (.num (ratOfTok hi)))
      else if isAlphaTok hi then .ok (.leftOpen (.str ⟨hi⟩))
      else if isDateTok hi then .error .typeError
      else .error .typeError
    else if !pre.isEmpty && suf.all (· = ' ') then
      -- right-open
      if isNumericTok lo then .ok (.rightOpen (.num (ratOfTok lo)))
      else if isAlphaTok lo then .ok (.rightOpen (.str ⟨lo⟩))
      else if isDateTok lo then .error .typeError
      else .error .typeError
    else if pre.all (· = ' ') && suf.all (· = ' ') then .ok .fullyOpen
    else .error .syntaxError
  | _ => .error .syntaxError

/-- `Interval.contains`.  A closed interval whose lower bound exceeds its
upper bound uses wrap-around containment; comparisons follow Python's
short-circuit evaluation order, so `TypeError`s surface exactly where the
source would raise them. -/
def Interval.contains : Interval → Value → Except Err Bool
  | .fullyOpen, _ => .ok true
  | .closed l u, v => do
    let inverted ← vgt l u
    if inverted then do
      let a ← vle l v
      if a then .ok true else vle v u
    else do
      let a ← vle l v
      if a then vle v u else .ok false
  | .leftOpen u, v => vle v u
  | .rightOpen l, v => vle l v
  | .exactly l, v => .ok (veq l v)

/-- A media item as returned by the metadata source.  Field names follow the
JSON keys read by the source; a `none`/`[]` value models an absent key.
(`Name` and `Id` are modelled as always present: `compile` subscripts
`item["Name"]` and `item["Id"]` unconditionally.) -/
structure Item where
  Id : String := ""
  Name : String := ""
  MediaType : String := ""
  ItemType : String := ""
  ProductionYear : Option Int := none
  Tags : Option (List String) := none
  RunTimeTicks : Option Int := none
  People : List String := []
  CommunityRating : Option Rat := none
  CriticRating : Option Rat := none
  OfficialRating : Option String := none
  CustomRating : Option String := none
  PremiereDate : Option PyDate := none
  DateCreated : Option PyDate := none
  SortName : Option String := none
  OriginalTitle : Option String := none
deriving DecidableEq, Repr

/-- A genre record (`get_all_genres` entries). -/
structure Genre where
  Id : String
  Name : String
deriving DecidableEq, Repr

/-- A library record (`get_all_libraries` entries). -/
structure Library where
  Id : String
  Name : String
  CollectionType : String
deriving DecidableEq, Repr

/-- The url parameters `compile` passes to `get_all_items` (the set-join
order of the comma-joined values is irrelevant to the opaque source). -/
structure Params where
  includeItemTypes : List String
  genreIds : Option (List String)
deriving DecidableEq, Repr

/-- The metadata source (the `Jellyfin` collaborator), opaque per the spec:
genre and library listings plus the two item-query capabilities. -/
structure Source where
  genres : List Genre
  libraries : List Library
  getAllItems : String → Params → List Item
  getItems : List String → List Item

/-- A value extracted from an item by a `filter_name_get_func` getter:
a number, a string, or a list of strings. -/
inductive ItemVal where
  | num (q : Rat)
  | strv (s : String)
  | strList (l : List String)
deriving DecidableEq, Repr

/-- A configured filter value: an `Interval`, a lowercased string set
(`tags`/`people_ids` list filters) or a plain string list (the `years`
fallback list). -/
inductive FilterVal where
  | interval (i : Interval)
  | strSet (l : List String)
  | strList (l : List String)
deriving DecidableEq, Repr

/-- Python `element in setlike` for the filter values that occur:
`in Interval` calls `contains`; `in set/list` is equality membership
(cross-type `==` is `False`). -/
def elemVal : FilterVal → Value → Except Err Bool
  | .interval i, v => Interval.contains i v
  | .strSet l, v => .ok (match v with | .str s => l.contains s | _ => false)
  | .strList l, v => .ok (match v with | .str s => l.contains s | _ => false)

/-- Short-circuiting `any` over an effectful predicate (the `for … return
True` loop in `Toolkit.contains_any`). -/
def firstTrueM : List α → (α → Except Err Bool) → Except Err Bool
  | [], _ => .ok false
  | x :: xs, f => do
    let b ← f x
    if b then .ok true else firstTrueM xs f

/-- `Toolkit.contains_any(filter_value, item_value)`.  A string item value is
`Iterable`, so Python iterates over the set of its characters; a list value
is iterated as a set; a numeric value is tested directly. -/
def containsAny (fv : FilterVal) (iv : ItemVal) : Except Err Bool :=
  match iv with
  | .num q => elemVal fv (.num q)
  | .strv s => firstTrueM (dedupFirst s.toList) (fun c => elemVal fv (.str (String.singleton c)))
  | .strList l => firstTrueM (dedupFirst l) (fun t => elemVal fv (.str t))

/-- `filter_name_get_func`: extracts the filterable attribute value from an
item, `none` when the item lacks it (runtime ticks are converted to
minutes; an empty people list counts as absent). -/
def getFunc (nm : String) (it : Item) : Option ItemVal :=
  match nm with
  | "years" => it.ProductionYear.map (fun y => .num (y : Rat))
  | "tags" => it.Tags.map .strList
  | "startwith_name" => some (.strv it.Name)
  | "runtime" => it.RunTimeTicks.map (fun t => .num ((t : Rat) / 10000000 / 60))
  | "people_ids" => if it.People.isEmpty then none else some (.strList it.People)
  | "community_rating" => it.CommunityRating.map .num
  | "critic_rating" => it.CriticRating.map .num
  | "official_rating" => it.OfficialRating.map .strv
  | "custom_rating" => it.CustomRating.map .strv
  | _ => none

/-- An `include`/`exclude` rule map of a dynamic playlist definition (every
configured value is the raw configuration string; an absent key is `none`). -/
structure RuleMap where
  item_types : Option String := none
  genres : Option String := none
  library_types : Option String := none
  library_ids : Option String := none
  item_ids : Option String := none
  years : Option String := none
  tags : Option String := none
  people_ids : Option String := none
  startwith_name : Option String := none
  runtime : Option String := none
  community_rating : Option String := none
  critic_rating : Option String := none
  official_rating : Option String := none
  custom_rating : Option String := none
deriving DecidableEq, Repr

/-- `StaticPlaylist` (after `__init__`, i.e. with `item_ids` deduplicated). -/
structure StaticPlaylist where
  name : String
  item_ids : List String
  sort_by : String
  sort_ascending : Bool
  sort_strict : Bool
  limit : Option Int
deriving DecidableEq, Repr

/-- `DynamicPlaylist` (constructor stores the fields verbatim; `limit` is
always an `int` for dynamic definitions). -/
structure DynamicPlaylist where
  name : String
  limit : Int
  includeRules : RuleMap
  excludeRules : RuleMap
  sort_by : String
  sort_ascending : Bool
  sort_strict : Bool
deriving Repr

/-- The `sort_by` vocabulary accepted by `raise_for_unsupported_sort_by`. -/
def supportedSortBy : List String :=
  ["order", "random", "Name", "OriginalTitle", "SortName", "DateCreated",
   "PremiereDate", "CriticRating", "CommunityRating", "RunTimeTicks", "ProductionYear"]

/-- `StaticPlaylist.__init__`: deduplicates the ids preserving first
occurrence and validates `sort_by` (raising `ValueError` otherwise). -/
def mkStatic (name : String) (ids : List String) (sort_by : String)
    (asc strict : Bool) (lim : Option Int) : Except Err StaticPlaylist :=
  if sort_by ∈ supportedSortBy then
    .ok ⟨name, dedupFirst ids, sort_by, asc, strict, lim⟩
  else .error .valueError

/-- Python `int(s)`: optional surrounding spaces, optional sign, digits. -/
def pyInt (s : String) : Except Err Int :=
  let cs := trimSpacesL (trimSpacesR s.toList)
  match cs with
  | '+' :: ds => if !ds.isEmpty && ds.all isDigitCh then .ok (natOfDigits ds) else .error .valueError
  | '-' :: ds => if !ds.isEmpty && ds.all isDigitCh then .ok (-(natOfDigits ds : Int)) else .error .valueError
  | ds => if !ds.isEmpty && ds.all isDigitCh then .ok (natOfDigits ds) else .error .valueError

/-- The `years` filter value: an `Interval` when the text parses, else — on a
`SyntaxError` only — the comma list kept where `int(token)` is non-zero
(`filter(int, ...)`; a non-integer token raises `ValueError`, and a
`TypeError` from `Interval` propagates). -/
def yearsFilter (v : String) : Except Err FilterVal :=
  match parseInterval v with
  | .ok i => .ok (.interval i)
  | .error .syntaxError => do
    let toks ← (pyParseList v).mapM (fun t => do
      let n ← pyInt t
      pure (t, n))
    .ok (.strList ((toks.filter (fun p => p.2 != 0)).map (·.1)))
  | .error e => .error e

/-- Ordered-dict update: replaces the value in place when the key exists
(keeping its original position, as Python dict assignment does), else
appends. -/
def assocUpdate (l : List (String × FilterVal)) (k : String) (v : FilterVal) :
    List (String × FilterVal) :=
  if l.any (fun p => p.1 == k) then l.map (fun p => if p.1 == k then (k, v) else p)
  else l ++ [(k, v)]

/-- One step of the list-filter loop (`tags`, `people_ids`): a lowercased
string set from the comma list, include suppressing exclude. -/
def listFilterStep (nm : String) (iv ev : Option String)
    (acc : List (String × FilterVal) × List (String × FilterVal)) :
    List (String × FilterVal) × List (String × FilterVal) :=
  match iv with
  | some v =>
    (assocUpdate acc.1 nm (.strSet (dedupFirst (((pyParseList v).filter (· ≠ "")).map pyToLower))), acc.2)
  | none =>
    match ev with
    | some v =>
      (acc.1, assocUpdate acc.2 nm (.strSet (dedupFirst (((pyParseList v).filter (· ≠ "")).map pyToLower))))
    | none => acc

/-- One step of the interval-filter loop: `Interval(str(value).lower())`,
include suppressing exclude. -/
def intervalFilterStep (nm : String) (iv ev : Option String)
    (acc : List (String × FilterVal) × List (String × FilterVal)) :
    Except Err (List (String × FilterVal) × List (String × FilterVal)) :=
  match iv with
  | some v => do
    let i ← parseInterval (pyToLower v)
    pure (assocUpdate acc.1 nm (.interval i), acc.2)
  | none =>
    match ev with
    | some v => do
      let i ← parseInterval (pyToLower v)
      pure (acc.1, assocUpdate acc.2 nm (.interval i))
    | none => pure acc

/-- The filter-collection section of `compile` (lines 516-556): builds the
`includes` and `excludes` ordered maps in the source's insertion order. -/
def buildFilters (inc exc : RuleMap) :
    Except Err (List (String × FilterVal) × List (String × FilterVal)) := do
  let acc : List (String × FilterVal) × List (String × FilterVal) := ([], [])
  let acc ← (match inc.years with
    | some v => do
      let fv ← yearsFilter v
      pure (assocUpdate acc.1 "years" fv, acc.2)
    | none =>
      match exc.years with
      | some v => do
        let fv ← yearsFilter v
        pure (acc.1, assocUpdate acc.2 "years" fv)
      | none => pure acc)
  let acc := listFilterStep "tags" inc.tags exc.tags acc
  let acc := listFilterStep "people_ids" inc.people_ids exc.people_ids acc
  let acc ← intervalFilterStep "startwith_name" inc.startwith_name exc.startwith_name acc
  let acc ← intervalFilterStep "runtime" inc.runtime exc.runtime acc
  let acc ← intervalFilterStep "people_ids" inc.people_ids exc.people_ids acc
  let acc ← intervalFilterStep "community_rating" inc.community_rating exc.community_rating acc
  let acc ← intervalFilterStep "critic_rating" inc.critic_rating exc.critic_rating acc
  let acc ← intervalFilterStep "official_rating" inc.official_rating exc.official_rating acc
  let acc ← intervalFilterStep "custom_rating" inc.custom_rating exc.custom_rating acc
  pure acc

/-- The inner include loop for one item: one appended copy per configured
include rule whose extracted value is present and contained in the rule's
filter value (rules with an absent value are skipped). -/
def includeScan : List (String × FilterVal) → Item → Except Err (List Item)
  | [], _ => .ok []
  | (nm, fv) :: rest, it =>
    match getFunc nm it with
    | none => includeScan rest it
    | some iv => do
      let b ← containsAny fv iv
      let tail ← includeScan rest it
      .ok (if b then it :: tail else tail)

/-- The include-filter loop over all candidate items (lines 578-593). -/
def includeItems (fs : List (String × FilterVal)) : List Item → Except Err (List Item)
  | [] => .ok []
  | it :: its => do
    let here ← includeScan fs it
    let rest ← includeItems fs its
    .ok (here ++ rest)

/-- Lines 577-595: with a non-empty include map, collect the matching items;
with no include rules every candidate is kept. -/
def includePhase (fs : List (String × FilterVal)) (items : List Item) :
    Except Err (List Item) :=
  if fs.isEmpty then .ok items else includeItems fs items

/-- The inner exclude loop for one item: the source appends the item when the
rule's value is present and NOT contained in the filter value (the
`if not Toolkit.contains_any(...)` test at line 615). -/
def excludeScan : List (String × FilterVal) → Item → Except Err (List Item)
  | [], _ => .ok []
  | (nm, fv) :: rest, it =>
    match getFunc nm it with
    | none => excludeScan rest it
    | some iv => do
      let b ← containsAny fv iv
      let tail ← excludeScan rest it
      .ok (if b then tail else it :: tail)

/-- The exclude-filter loop over the included items (lines 603-617). -/
def excludeItems (fs : List (String × FilterVal)) : List Item → Except Err (List Item)
  | [] => .ok []
  | it :: its => do
    let here ← excludeScan fs it
    let rest ← excludeItems fs its
    .ok (here ++ rest)

/-- Lines 601-617: the removal list is empty unless exclude rules exist. -/
def excludePhase (fs : List (String × FilterVal)) (items : List Item) :
    Except Err (List Item) :=
  if fs.isEmpty then .ok [] else excludeItems fs items

/-- Canonical list form of Python set intersection `a &= b`. -/
def setInterL (a b : List String) : List String := a.filter (fun x => decide (x ∈ b))

/-- Canonical list form of Python set difference `a -= b`. -/
def setDiffL (a b : List String) : List String := a.filter (fun x => decide (x ∉ b))

/-- The default item-type vocabulary (lowercased). -/
def defaultItemTypes : List String :=
  ["aggregatefolder", "boxset", "collectionfolder", "episode", "movie", "season", "series", "video"]

/-- The default library collection-type vocabulary. -/
def defaultLibraryTypes : List String :=
  ["unknown", "movies", "tvshows", "homevideos", "boxsets", "playlists", "folders"]

/-- First maximal run of characters satisfying `p` (`re.findall(...)[0]`),
`none` when there is no match. -/
def firstRun (p : Char → Bool) : List Char → Option (List Char)
  | [] => none
  | c :: cs => if p c then some (c :: cs.takeWhile p) else firstRun p cs

/-- `[a-z0-9]` as a character predicate. -/
def isAlnumCh (c : Char) : Bool := isLowerCh c || isDigitCh c

/-- The first `[a-z0-9]+` token of the lowercased string, if any. -/
def firstAlnumToken (s : String) : Option String :=
  (firstRun isAlnumCh (pyToLower s).toList).map String.mk

/-- `Toolkit.match_fuzzy` over the genre list: builds the token→genre dict
(later entries overwrite earlier ones) and looks up the query's token;
`re.findall(...)[0]` raises `IndexError` when either side has no token; a
missed lookup yields the `""` default, modelled as `none`. -/
def matchFuzzyGenres (gs : List Genre) (fuzzy : String) : Except Err (Option Genre) := do
  let pairs ← gs.mapM (fun g =>
    match firstAlnumToken g.Name with
    | some t => Except.ok (t, g)
    | none => Except.error Err.indexError)
  match firstAlnumToken fuzzy with
  | none => .error .indexError
  | some t => .ok ((pairs.reverse.find? (fun p => p.1 == t)).map (·.2))

/-- The scope-resolution and filtering pipeline of `DynamicPlaylist.compile`
(lines 436-633), producing the pair of
(ids surviving scope+attribute filtering with `exclude.item_ids` already
removed from the candidates, force-included `include.item_ids`).
The final id list of `compile` is the deduplication of their concatenation. -/
def compileIds (d : DynamicPlaylist) (jf : Source) :
    Except Err (List String × List String) := do
  -- allowed item types (include narrows, else exclude removes)
  let item_types :=
    match d.includeRules.item_types with
    | some v => setInterL defaultItemTypes ((pyParseList v).map pyToLower)
    | none =>
      match d.excludeRules.item_types with
      | some v => setDiffL defaultItemTypes ((pyParseList v).map pyToLower)
      | none => defaultItemTypes
  -- genres (fuzzy matched; the exclude branch evaluates set(jellyfin_genres)
  -- over dicts, which raises TypeError unless the genre list is empty)
  let genreIds ← (match d.includeRules.genres with
    | some v => do
      let ms ← (pyParseList v).mapM (fun g => matchFuzzyGenres jf.genres g)
      pure (some ((ms.filterMap id).map (·.Id)))
    | none =>
      match d.excludeRules.genres with
      | some v =>
        if jf.genres.isEmpty then do
          let _ ← (pyParseList v).mapM (fun g => matchFuzzyGenres jf.genres g)
          pure (some ([] : List String))
        else .error .typeError
      | none => pure none)
  -- allowed library collection types
  let library_types :=
    match d.includeRules.library_types with
    | some v => setInterL defaultLibraryTypes (((pyParseList v).filter (· ≠ "")).map pyToLower)
    | none =>
      match d.excludeRules.library_types with
      | some v => setDiffL defaultLibraryTypes (((pyParseList v).filter (· ≠ "")).map pyToLower)
      | none => defaultLibraryTypes
  -- libraries in scope
  let libraries := jf.libraries.filter (fun l => decide ((pyToLower l.CollectionType) ∈ library_types))
  let libIdsAll := dedupFirst (libraries.map (·.Id))
  let library_ids :=
    match d.includeRules.library_ids with
    | some v => setInterL libIdsAll ((pyParseList v).filter (· ≠ ""))
    | none =>
      match d.excludeRules.library_ids with
      | some v => setDiffL libIdsAll ((pyParseList v).filter (· ≠ ""))
      | none => libIdsAll
  let params : Params := ⟨item_types, genreIds⟩
  let allItems := (library_ids.map (fun lid => jf.getAllItems lid params)).flatten
  -- remove items to exclude always (BEFORE attribute filtering)
  let allItems :=
    match d.excludeRules.item_ids with
    | some v => allItems.filter (fun (it : Item) => !(((pyParseList v).filter (· ≠ "")).contains it.Id))
    | none => allItems
  -- remove items of excluded item type (any non-empty Type passes)
  let allItems := allItems.filter
    (fun it => decide ((pyToLower it.MediaType) ∈ item_types) || !((pyToLower it.ItemType) == ""))
  let fs ← buildFilters d.includeRules d.excludeRules
  let included ← includePhase fs.1 allItems
  let excluded ← excludePhase fs.2 included
  let survivors := setDiffL (dedupFirst (included.map (·.Id))) (excluded.map (·.Id))
  let force :=
    match d.includeRules.item_ids with
    | some v => (pyParseList v).filter (· ≠ "")
    | none => []
  pure (survivors, force)

/-- `DynamicPlaylist.compile`: the filtered ids plus the force-included ids,
deduplicated, wrapped in a static playlist carrying the definition's sort
configuration and limit. -/
def compile (d : DynamicPlaylist) (jf : Source) : Except Err StaticPlaylist := do
  let (survivors, force) ← compileIds d jf
  mkStatic d.name (dedupFirst (survivors ++ force)) d.sort_by d.sort_ascending
    d.sort_strict (some d.limit)

/-- A sort key: each supported `sort_by` attribute yields keys of exactly one
of these domains for every item. -/
inductive ItemKey where
  | str (s : String)
  | date (d : PyDate)
  | num (q : Rat)
deriving DecidableEq, Repr

/-- `<=` on same-domain sort keys (keys of one sort call never mix domains;
the cross-domain value is arbitrary and unreachable). -/
def ItemKey.le : ItemKey → ItemKey → Bool
  | .str a, .str b => !strLT b.toList a.toList
  | .date a, .date b => PyDate.le a b
  | .num a, .num b => decide (a ≤ b)
  | _, _ => true

/-- The strict key function (lines 361-367): reads only the named attribute,
with the domain-minimum default when absent. -/
def strictKey (sort_by : String) (m : Item) : ItemKey :=
  match sort_by with
  | "Name" => .str m.Name
  | "OriginalTitle" => .str (m.OriginalTitle.getD "")
  | "SortName" => .str (m.SortName.getD "")
  | "DateCreated" => .date (m.DateCreated.getD ⟨1, 1, 1⟩)
  | "PremiereDate" => .date (m.PremiereDate.getD ⟨1, 1, 1⟩)
  | "CriticRating" => .num (m.CriticRating.getD 0)
  | "CommunityRating" => .num (m.CommunityRating.getD 0)
  | "RunTimeTicks" => .num ((m.RunTimeTicks.getD 0 : Int) : Rat)
  | "ProductionYear" => .num ((m.ProductionYear.getD 0 : Int) : Rat)
  | _ => .num 0

/-- `Toolkit.dict_priority_get(metadata, "", sort_by, "SortName", "Name")`
restricted to the three title attributes. -/
def titleFallback (sort_by : String) (m : Item) : String :=
  let get1 : String → Option String := fun k =>
    match k with
    | "Name" => some m.Name
    | "SortName" => m.SortName
    | "OriginalTitle" => m.OriginalTitle
    | _ => none
  match get1 sort_by with
  | some s => s
  | none =>
    match m.SortName with
    | some s => s
    | none => m.Name

/-- The lenient key function (lines 377-397): substitutes the cooperating
attribute when the primary is absent; attributes without a lenient override
(`DateCreated`, `RunTimeTicks`) keep the strict key. -/
def lenientKey (sort_by : String) (m : Item) : ItemKey :=
  match sort_by with
  | "Name" => .str (titleFallback "Name" m)
  | "OriginalTitle" => .str (titleFallback "OriginalTitle" m)
  | "SortName" => .str (titleFallback "SortName" m)
  | "CriticRating" =>
    match m.CriticRating with
    | some r => .num r
    | none => .num (m.CommunityRating.getD 0 * 10)
  | "CommunityRating" =>
    match m.CommunityRating with
    | some r => .num r
    | none => .num (m.CriticRating.getD 0 / 10)
  | "PremiereDate" =>
    match m.PremiereDate with
    | some d => .date d
    | none => .date ⟨m.ProductionYear.getD 1, 1, 1⟩
  | "ProductionYear" =>
    match m.ProductionYear with
    | some y => .date ⟨y, 1, 1⟩
    | none => .date (m.PremiereDate.getD ⟨1, 1, 1⟩)
  | _ => strictKey sort_by m

/-- Stable insertion: the new element goes after every existing element that
compares `le` to it, so equal keys keep their arrival order. -/
def insertBy (le : α → α → Bool) (x : α) : List α → List α
  | [] => [x]
  | y :: ys => if le y x then y :: insertBy le x ys else x :: y :: ys

/-- A stable sort by the boolean total preorder `le` (any stable sort
computes the same permutation as Python's `list.sort`). -/
def pyStableSort (le : α → α → Bool) (l : List α) : List α :=
  l.foldl (fun acc x => insertBy le x acc) []

/-- `list.sort(key=key, reverse=rev)`: reversed comparisons, ties keep the
fetch order. -/
def pySortBy (key : Item → ItemKey) (rev : Bool) (l : List Item) : List Item :=
  pyStableSort (fun a b => if rev then ItemKey.le (key b) (key a) else ItemKey.le (key a) (key b)) l

/-- Python `l[:n]` (a negative bound counts from the end). -/
def pyTake (l : List α) (n : Int) : List α :=
  if 0 ≤ n then l.take n.toNat else l.take ((l.length : Int) + n).toNat

/-- `Toolkit.limit`: no bound means the whole list. -/
def pyLimit (l : List α) : Option Int → List α
  | none => l
  | some n => pyTake l n

/-- The attribute names that reach the metadata-driven sort path. -/
def attrSortNames : List String :=
  ["Name", "OriginalTitle", "SortName", "DateCreated", "PremiereDate",
   "CriticRating", "CommunityRating", "RunTimeTicks", "ProductionYear"]

/-- `StaticPlaylist.sort`: `order` reverses on descending, `random` shuffles
(the shuffle is modelled as the identity permutation — randomness is outside
the embedding), and every attribute key fetches metadata, sorts stably by
the strict or lenient key, applies the limit AFTER sorting, and returns the
ids.  An unsupported `sort_by` raises `ValueError`; a validated name with no
key function would raise `LookupError`. -/
def StaticPlaylist.sort (p : StaticPlaylist) (jf : Source) : Except Err (List String) :=
  if p.sort_by ∉ supportedSortBy then .error .valueError
  else if p.sort_by == "order" then
    .ok (pyLimit (if p.sort_ascending then p.item_ids else p.item_ids.reverse) p.limit)
  else if p.sort_by == "random" then
    .ok (pyLimit p.item_ids p.limit)
  else if p.sort_by ∈ attrSortNames then
    let key := if p.sort_strict then strictKey p.sort_by else lenientKey p.sort_by
    .ok ((pyLimit (pySortBy key (!p.sort_ascending) (jf.getItems p.item_ids)) p.limit).map (·.Id))
  else .error .lookupError

/-- A selection-rule entry (`Conditional`): the two override flags and the
condition strings (`none` = key absent in the configuration). -/
structure Conditional where
  name : String
  disabled : Bool := false
  selected : Bool := false
  hours : Option String := none
  weekdays : Option String := none
  days : Option String := none
  weeks : Option String := none
  months : Option String := none
  years : Option String := none
  dates : Option String := none
  user_age : Option String := none
deriving DecidableEq, Repr

/-- The ambient state `Conditional.is_true` reads: the components of
`datetime.now()` and, when a `jellyfin` handle plus `user_id` were supplied,
the user's `MaxParentalRating` policy value (`some none` = policy absent). -/
structure Env where
  hour : Int := 0
  isoweekday : Int := 1
  day : Int := 1
  isoweek : Int := 1
  month : Int := 1
  year : Int := 2000
  now : PyDate := ⟨2000, 1, 1⟩
  user : Option (Option String) := none
deriving DecidableEq, Repr

/-- `int(re.findall(r"[0-9]+", f"0{rating}")[0])`: the number encoded by the
leading digits of `"0" ++ rating`. -/
def parentalNum (r : String) : Int :=
  natOfDigits (('0' :: r.toList).takeWhile isDigitCh)

/-- The `elif` chain of time predicates in `Conditional.is_true` (lines
672-692): only the FIRST configured family is evaluated; `true` when none is
configured.  (The `dates` family passes the current `datetime` to
`contains`.) -/
def timeCheck (c : Conditional) (env : Env) : Except Err Bool :=
  match c.hours with
  | some s => do Interval.contains (← parseInterval s) (.num env.hour)
  | none =>
    match c.weekdays with
    | some s => do Interval.contains (← parseInterval s) (.num env.isoweekday)
    | none =>
      match c.days with
      | some s => do Interval.contains (← parseInterval s) (.num env.day)
      | none =>
        match c.weeks with
        | some s => do Interval.contains (← parseInterval s) (.num env.isoweek)
        | none =>
          match c.months with
          | some s => do Interval.contains (← parseInterval s) (.num env.month)
          | none =>
            match c.years with
            | some s => do Interval.contains (← parseInterval s) (.num env.year)
            | none =>
              match c.dates with
              | some s => do Interval.contains (← parseInterval s) (.date env.now)
              | none => .ok true

/-- The viewer-age predicate (lines 695-705): only evaluated when a user
context was supplied and the policy carries a parental rating. -/
def userCheck (c : Conditional) (env : Env) : Except Err Bool :=
  match env.user with
  | none => .ok true
  | some maxRating =>
    match c.user_age with
    | none => .ok true
    | some ua =>
      match maxRating with
      | none => .ok true
      | some rating => do
        Interval.contains (← parseInterval ua) (.num (parentalNum rating))

/-- `Conditional.is_true`: `disabled` forces false, `selected` forces true,
then the time chain, then the viewer-age check. -/
def isTrue (c : Conditional) (env : Env) : Except Err Bool :=
  if c.disabled then .ok false
  else if c.selected then .ok true
  else do
    let t ← timeCheck c env
    if !t then .ok false
    else do
      let u ← userCheck c env
      if !u then .ok false else .ok true

/-- `true` iff evaluating the conditional neither raised. -/
def evalOk (e : Except Err Bool) : Bool :=
  match e with
  | .ok _ => true
  | .error _ => false

/-- `true` iff the conditional evaluated to `True`. -/
def isOkTrue (e : Except Err Bool) : Bool :=
  match e with
  | .ok b => b
  | .error _ => false

/-- The `for`-loop of `MediaBar.get_selected`: first conditional evaluating
true, errors propagating. -/
def selectLoop (env : Env) : List Conditional → Except Err (Option Conditional)
  | [] => .ok none
  | c :: cs => do
    let b ← isTrue c env
    if b then .ok (some c) else selectLoop env cs

/-- `MediaBar.get_selected`: `self.conditionals[-1]` is read FIRST, so an
empty rule list raises `IndexError`; otherwise the first satisfied rule, or
the last rule when none is satisfied. -/
def getSelected (cs : List Conditional) (env : Env) : Except Err Conditional :=
  match cs.getLast? with
  | none => .error .indexError
  | some lastC => do
    let r ← selectLoop env cs
    .ok (r.getD lastC)

/-! Concrete instances used to settle the claims -/

/-- A movie item carrying only an id and a production year. -/
def movie (id : String) (year : Int) : Item :=
  { Id := id, Name := id, MediaType := "Video", ItemType := "Movie", ProductionYear := some year }

/-- A metadata source with a single movie library returning `items`;
`getItems` resolves ids against the same list in request order. -/
def oneLibrarySource (items : List Item) : Source where
  genres := []
  libraries := [⟨"L1", "Library", "movies"⟩]
  getAllItems := fun _ _ => items
  getItems := fun ids => ids.filterMap (fun i => items.find? (fun it => it.Id == i))

/-- C1 scenario: an exclude rule `years = "2000-2010"` and no include rules. -/
def dC1 : DynamicPlaylist :=
  { name := "c1", limit := 10, includeRules := {}, excludeRules := { years := some "2000-2010" },
    sort_by := "order", sort_ascending := true, sort_strict := false }

/-- C1 candidates: `A` has a year inside the excluded range, `B` outside. -/
def srcC1 : Source := oneLibrarySource [movie "A" 2005, movie "B" 1999]

/-- C2 scenario: include rules on two attributes, years and tags. -/
def dC2 : DynamicPlaylist :=
  { name := "c2", limit := 10,
    includeRules := { years := some "2000-2010", tags := some "scifi" }, excludeRules := {},
    sort_by := "order", sort_ascending := true, sort_strict := false }

/-- C2 candidate: its year satisfies the years rule but its tags fail the
tags rule. -/
def itemX : Item :=
  { Id := "X", Name := "X", MediaType := "Video", ItemType := "Movie",
    ProductionYear := some 2005, Tags := some ["drama"] }

/-- C2 metadata source. -/
def srcC2 : Source := oneLibrarySource [itemX]

/-- C4 scenario: the same id in both `include.item_ids` and
`exclude.item_ids`, plus one ordinary candidate. -/
def dC4 : DynamicPlaylist :=
  { name := "c4", limit := 10,
    includeRules := { item_ids := some "X" }, excludeRules := { item_ids := some "X" },
    sort_by := "order", sort_ascending := true, sort_strict := false }

/-- C4 metadata source. -/
def srcC4 : Source := oneLibrarySource [movie "A" 2005]

/-- C5 scenario: the end-to-end definition of spec §8. -/
def dC5 : DynamicPlaylist :=
  { name := "c5", limit := 2,
    includeRules := { item_types := some "Movie", years := some "2000-2010" }, excludeRules := {},
    sort_by := "ProductionYear", sort_ascending := false, sort_strict := false }

/-- C5 metadata source: five movies with the spec's production years. -/
def srcC5 : Source :=
  oneLibrarySource
    [movie "m1999" 1999, movie "m2001" 2001, movie "m2005" 2005, movie "m2010" 2010, movie "m2015" 2015]

/-- An item satisfies at least one of the configured include rules: some
rule's getter yields a value and the rule's filter contains it. -/
def matchesSomeInclude (fs : List (String × FilterVal)) (x : Item) : Prop :=
  ∃ nm fv, (nm, fv) ∈ fs ∧ ∃ iv, getFunc nm x = some iv ∧ containsAny fv iv = .ok true

/-- The include filter map built for the C2 scenario (years interval plus
tags set, in the source's insertion order). -/
def c2fs : List (String × FilterVal) :=
  [("years", .interval (.closed (.num 2000) (.num 2010))), ("tags", .strSet ["scifi"])]

/-- The static playlist `compile` produces in the C4 scenario. -/
def pC4 : StaticPlaylist :=
  { name := "c4", item_ids := ["A", "X"], sort_by := "order",
    sort_ascending := true, sort_strict := false, limit := some 10 }

/-- C7 witness rules: neither ever matches (hour range `0-1` against 5 h). -/
def condA : Conditional := { name := "a", hours := some "0-1" }

/-- The second never-matching rule. -/
def condB : Conditional := { name := "b", hours := some "0-1" }

/-- C7/C10 witness environment. -/
def envW : Env := { hour := 5 }

/-- C8 witness item: no critic rating, community rating 50. -/
def itemR0 : Item := { Id := "r0", CommunityRating := some 50 }

/-- C8 witness item for the symmetric direction: only a critic rating. -/
def itemR1 : Item := { Id := "r1", CriticRating := some 73 }

/-! Sanity checks of the embedding on concrete inputs -/

example : parseInterval "22-04" = .ok (.closed (.num 22) (.num 4)) := by decide
example : parseInterval "abc-xyz" = .ok (.closed (.str "abc") (.str "xyz")) := by decide
example : parseInterval "5-abc" = .error .typeError := by decide
example : parseInterval "2024_01_01-2024_12_31" = .error .typeError := by decide
example : parseInterval "-2024_12_31" = .error .typeError := by decide
example : parseInterval "-" = .ok .fullyOpen := by decide
example : parseInterval "7" = .error .typeError := by decide
example : parseInterval "" = .error .syntaxError := by decide
example : parseInterval "a-b-c" = .error .syntaxError := by decide
example : parseInterval "2000-2010" = .ok (.closed (.num 2000) (.num 2010)) := by decide
example : Interval.contains (.closed (.num 22) (.num 4)) (.num 23) = .ok true := by decide
example : Interval.contains (.closed (.num 22) (.num 4)) (.num 12) = .ok false := by decide
example : Interval.contains (.closed (.num 22) (.num 4)) (.num 2) = .ok true := by decide

example : (compile dC1 srcC1).map (·.item_ids) = .ok ["A"] := rfl
example : (compile dC2 srcC2).map (·.item_ids) = .ok ["X"] := rfl
example : (compile dC4 srcC4).map (·.item_ids) = .ok ["A", "X"] := rfl
example : compileIds dC4 srcC4 = .ok (["A"], ["X"]) := rfl
example : (compile dC5 srcC5).map (·.item_ids) = .ok ["m2001", "m2005", "m2010"] := rfl
example : (compile dC5 srcC5).bind (fun p => p.sort srcC5) = .ok ["m2010", "m2005"] := rfl

example : isTrue condA envW = .ok false := rfl
example : getSelected [condA, condB] envW = .ok condB := rfl
example : getSelected [condB, condA] envW = .ok condA := rfl
example : getSelected [{ name := "s", selected := true }, condB] envW =
    .ok { name := "s", selected := true } := rfl
example : getSelected [] envW = .error .indexError := rfl

example : lenientKey "CriticRating" itemR0 = .num 500 := by
  norm_num [lenientKey, itemR0]
example : strictKey "CriticRating" itemR0 = .num 0 := rfl
example : lenientKey "CommunityRating" itemR1 = .num (73 / 10) := by
  simp [lenientKey, itemR1]

/-! General lemmas about the embedding -/

theorem mem_dedupAux [DecidableEq α] (l : List α) :
    ∀ (seen : List α) (x : α), x ∈ dedupAux seen l ↔ x ∈ l ∧ x ∉ seen := by
  induction l with
  | nil => intro seen x; simp [dedupAux]
  | cons a as ih =>
    intro seen x
    by_cases ha : a ∈ seen
    · simp only [dedupAux, if_pos ha, ih, List.mem_cons]
      constructor
      · rintro ⟨hx, hs⟩; exact ⟨Or.inr hx, hs⟩
      · rintro ⟨hx | hx, hs⟩
        · subst hx; exact absurd ha hs
        · exact ⟨hx, hs⟩
    · simp only [dedupAux, if_neg ha, List.mem_cons, ih]
      constructor
      · rintro (rfl | ⟨hx, hs⟩)
        · exact ⟨Or.inl rfl, ha⟩
        · simp only [List.mem_cons, not_or] at hs
          exact ⟨Or.inr hx, hs.2⟩
      · rintro ⟨rfl | hx, hs⟩
        · exact Or.inl rfl
        · by_cases hxa : x = a
          · exact Or.inl hxa
          · exact Or.inr ⟨hx, by simp [List.mem_cons, hxa, hs]⟩

theorem nodup_dedupAux [DecidableEq α] (l : List α) :
    ∀ seen : List α, (dedupAux seen l).Nodup := by
  induction l with
  | nil => intro _; simp [dedupAux]
  | cons a as ih =>
    intro seen
    by_cases ha : a ∈ seen
    · simpa [dedupAux, ha] using ih seen
    · simp only [dedupAux, if_neg ha, List.nodup_cons]
      refine ⟨fun hmem => ?_, ih _⟩
      rw [mem_dedupAux] at hmem
      exact hmem.2 (List.mem_cons_self a seen)

theorem mem_dedupFirst [DecidableEq α] (l : List α) (x : α) :
    x ∈ dedupFirst l ↔ x ∈ l := by
  simp [dedupFirst, mem_dedupAux]

theorem nodup_dedupFirst [DecidableEq α] (l : List α) : (dedupFirst l).Nodup :=
  nodup_dedupAux l []

theorem dedupAux_eq_self [DecidableEq α] (l : List α) :
    ∀ seen : List α, l.Nodup → (∀ x ∈ l, x ∉ seen) → dedupAux seen l = l := by
  induction l with
  | nil => intro _ _ _; rfl
  | cons a as ih =>
    intro seen hnd hdisj
    have ha : a ∉ seen := hdisj a (List.mem_cons_self a as)
    rw [List.nodup_cons] at hnd
    simp only [dedupAux, if_neg ha]
    rw [ih (a :: seen) hnd.2]
    intro x hx
    simp only [List.mem_cons, not_or]
    exact ⟨fun hxa => hnd.1 (hxa ▸ hx), hdisj x (List.mem_cons_of_mem a hx)⟩

theorem dedupFirst_idem [DecidableEq α] (l : List α) :
    dedupFirst (dedupFirst l) = dedupFirst l :=
  dedupAux_eq_self (dedupFirst l) [] (nodup_dedupFirst l) (by simp)

theorem exc_bind_ok (a : α) (f : α → Except Err β) :
    (Except.ok a >>= f) = f a := rfl

theorem exc_bind_error (e : Err) (f : α → Except Err β) :
    ((Except.error e : Except Err α) >>= f) = .error e := rfl

theorem selectLoop_eq_find (env : Env) (cs : List Conditional)
    (hok : ∀ c ∈ cs, evalOk (isTrue c env) = true) :
    selectLoop env cs = .ok (cs.find? (fun c => isOkTrue (isTrue c env))) := by
  induction cs with
  | nil => rfl
  | cons c cs ih =>
    have h1 := hok c (List.mem_cons_self c cs)
    cases hb : isTrue c env with
    | error e => rw [hb] at h1; simp [evalOk] at h1
    | ok b =>
      have ih' := ih (fun d hd => hok d (List.mem_cons_of_mem c hd))
      cases b with
      | true =>
        rw [List.find?_cons]
        simp only [isOkTrue, hb]
        rw [selectLoop, hb, exc_bind_ok]
        rfl
      | false =>
        rw [List.find?_cons]
        simp only [isOkTrue, hb]
        rw [selectLoop, hb, exc_bind_ok]
        exact ih'

theorem mem_includeScan (it : Item) (fs : List (String × FilterVal)) :
    ∀ out : List Item, includeScan fs it = .ok out →
      ∀ x, x ∈ out ↔ x = it ∧ matchesSomeInclude fs it := by
  induction fs with
  | nil =>
    intro out h x
    injection h with h
    subst h
    simp [matchesSomeInclude]
  | cons p rest ih =>
    obtain ⟨nm, fv⟩ := p
    intro out h x
    cases hg : getFunc nm it with
    | none =>
      simp only [includeScan, hg] at h
      rw [ih out h]
      simp only [matchesSomeInclude, List.mem_cons, Prod.mk.injEq]
      constructor
      · rintro ⟨rfl, nm', fv', hmem, iv, hgf, hca⟩
        exact ⟨rfl, nm', fv', Or.inr hmem, iv, hgf, hca⟩
      · rintro ⟨rfl, nm', fv', ⟨rfl, rfl⟩ | hmem, iv, hgf, hca⟩
        · rw [hg] at hgf; cases hgf
        · exact ⟨rfl, nm', fv', hmem, iv, hgf, hca⟩
    | some iv =>
      simp only [includeScan, hg] at h
      cases hca : containsAny fv iv with
      | error e => rw [hca, exc_bind_error] at h; cases h
      | ok b =>
        rw [hca, exc_bind_ok] at h
        cases hrest : includeScan rest it with
        | error e => rw [hrest, exc_bind_error] at h; cases h
        | ok tail =>
          rw [hrest, exc_bind_ok] at h
          have htail := ih tail hrest
          injection h with h
          subst h
          cases b with
          | true =>
            rw [show (if (true : Bool) = true then it :: tail else tail) = it :: tail from rfl]
            constructor
            · intro hx
              rcases List.mem_cons.mp hx with rfl | hx
              · exact ⟨rfl, nm, fv, List.mem_cons_self _ _, iv, hg, hca⟩
              · exact ⟨((htail x).mp hx).1, nm, fv, List.mem_cons_self _ _, iv, hg, hca⟩
            · rintro ⟨rfl, -⟩
              exact List.mem_cons_self _ _
          | false =>
            rw [show (if (false : Bool) = true then it :: tail else tail) = tail from rfl]
            rw [htail x]
            simp only [matchesSomeInclude]
            constructor
            · rintro ⟨rfl, nm', fv', hmem, iv', hgf, hca'⟩
              exact ⟨rfl, nm', fv', List.mem_cons_of_mem _ hmem, iv', hgf, hca'⟩
            · rintro ⟨rfl, nm', fv', hmem, iv', hgf, hca'⟩
              rcases List.mem_cons.mp hmem with heq | hmem'
              · cases heq
                rw [hg] at hgf
                injection hgf with hgf
                subst hgf
                rw [hca] at hca'
                cases hca'
              · exact ⟨rfl, nm', fv', hmem', iv', hgf, hca'⟩

theorem mem_includeItems (fs : List (String × FilterVal)) :
    ∀ (items kept : List Item), includeItems fs items = .ok kept →
      ∀ x, x ∈ kept ↔ x ∈ items ∧ matchesSomeInclude fs x := by
  intro items
  induction items with
  | nil =>
    intro kept h x
    injection h with h
    subst h
    simp
  | cons i is ih =>
    intro kept h x
    rw [includeItems] at h
    cases hscan : includeScan fs i with
    | error e => rw [hscan, exc_bind_error] at h; cases h
    | ok here =>
      rw [hscan, exc_bind_ok] at h
      cases hrest : includeItems fs is with
      | error e => rw [hrest, exc_bind_error] at h; cases h
      | ok rest =>
        rw [hrest, exc_bind_ok] at h
        injection h with h
        subst h
        rw [List.mem_append, mem_includeScan i fs here hscan x, ih rest hrest x,
          List.mem_cons]
        constructor
        · rintro (⟨rfl, hm⟩ | ⟨hx, hm⟩)
          · exact ⟨Or.inl rfl, hm⟩
          · exact ⟨Or.inr hx, hm⟩
        · rintro ⟨rfl | hx, hm⟩
          · exact Or.inl ⟨rfl, hm⟩
          · exact Or.inr ⟨hx, hm⟩

/-! Claim theorems -/

/-- C1: the claim states that `compile` drops exactly the items whose
attribute value intersects a configured exclude rule and keeps the rest.
The code does the opposite: with `exclude.years = "2000-2010"`, item `A`
(year 2005, inside the range) is KEPT and item `B` (year 1999, outside the
range) is DROPPED — the membership test at line 615 of `listgen.py` is
negated relative to the block comment at line 600 that states the intended
behaviour. -/
theorem c1_exclude_rule_inverted :
    (compile dC1 srcC1).map (·.item_ids) = .ok ["A"] := rfl

/-- C2 counterexample: the claim states an item whose present attribute value
fails one configured include rule is absent even when another rule matches.
`itemX` (year 2005 satisfies the years rule, tags `["drama"]` fail the tags
rule) is nevertheless in the compiled result: include rules combine as OR,
not AND. -/
theorem c2_and_semantics_cex :
    (compile dC2 srcC2).map (fun p => decide ("X" ∈ p.item_ids)) = .ok true := rfl

/-- C2 (amended): the include-filtering step of `compile` keeps exactly the
candidate items that satisfy AT LEAST ONE configured include rule on an
attribute whose value they carry (one appended copy per satisfied rule,
collapsed when ids are collected); an item missing an attribute's value is
skipped by that rule only, and an item matching no rule is dropped. -/
theorem c2_include_or_semantics (fs : List (String × FilterVal))
    (items kept : List Item) (hne : fs ≠ [])
    (h : includePhase fs items = .ok kept) (x : Item) :
    x ∈ kept ↔ x ∈ items ∧ matchesSomeInclude fs x := by
  cases fs with
  | nil => exact absurd rfl hne
  | cons a as => exact mem_includeItems (a :: as) items kept h x

/-- C2 amended-claim witness at the scenario's concrete input. -/
theorem c2_include_or_semantics_witness :
    c2fs ≠ ([] : List (String × FilterVal)) ∧
    includePhase c2fs [itemX] = .ok [itemX] ∧
    (itemX ∈ ([itemX] : List Item) ∧ matchesSomeInclude c2fs itemX) := by
  refine ⟨by simp [c2fs], rfl, ?_⟩
  exact (c2_include_or_semantics c2fs [itemX] [itemX] (by simp [c2fs]) rfl itemX).mp
    (List.mem_cons_self _ _)

/-- C3: the claim states that interval texts whose bound tokens match the
`YYYY_MM_DD` pattern parse into a date-domain range.  In the code every date
branch calls `dt.datetime.strftime` with the matched token — a `str` — as
receiver, which raises `TypeError`, so both the closed and the left-open
date interval of the claim fail to parse. -/
theorem c3_date_interval_parse_raises :
    parseInterval "2024_01_01-2024_12_31" = .error .typeError ∧
    parseInterval "-2024_12_31" = .error .typeError := ⟨rfl, rfl⟩

/-- C4 counterexample: the claim states an identifier listed in both
`include.item_ids` and `exclude.item_ids` is absent from the compiled
result.  In the code the exclusion is applied to the fetched candidates
BEFORE filtering and the inclusion is appended afterwards, so the id `"X"`,
listed in both, IS present. -/
theorem c4_force_exclude_overridden_cex :
    (compile dC4 srcC4).map (fun p => decide ("X" ∈ p.item_ids)) = .ok true := rfl

/-- C4 (amended): the compiled identifier list is duplicate-free and equals
(as a set) the union of the attribute-filtering survivors — computed from
candidates with the force-excluded ids already removed — and the
force-included `include.item_ids`; in particular every force-included id is
present, even one also listed in `exclude.item_ids`. -/
theorem c4_union_of_survivors_and_force (d : DynamicPlaylist) (jf : Source)
    (s f : List String) (p : StaticPlaylist)
    (h1 : compileIds d jf = .ok (s, f)) (h2 : compile d jf = .ok p) :
    p.item_ids.Nodup ∧ (∀ x, x ∈ p.item_ids ↔ x ∈ s ∨ x ∈ f) ∧
      ∀ x ∈ f, x ∈ p.item_ids := by
  rw [compile, h1, exc_bind_ok] at h2
  change mkStatic d.name (dedupFirst (s ++ f)) d.sort_by d.sort_ascending
    d.sort_strict (some d.limit) = .ok p at h2
  rw [mkStatic] at h2
  split at h2
  · injection h2 with h2
    subst h2
    refine ⟨nodup_dedupFirst _, fun x => ?_, fun x hx => ?_⟩
    · show x ∈ dedupFirst (dedupFirst (s ++ f)) ↔ _
      rw [dedupFirst_idem, mem_dedupFirst, List.mem_append]
    · show x ∈ dedupFirst (dedupFirst (s ++ f))
      rw [dedupFirst_idem, mem_dedupFirst, List.mem_append]
      exact Or.inr hx
  · cases h2

/-- C4 amended-claim witness at the scenario's concrete input. -/
theorem c4_union_of_survivors_and_force_witness :
    compileIds dC4 srcC4 = .ok (["A"], ["X"]) ∧
    compile dC4 srcC4 = .ok pC4 ∧ "X" ∈ pC4.item_ids :=
  ⟨rfl, rfl,
    (c4_union_of_survivors_and_force dC4 srcC4 ["A"] ["X"] pC4 rfl rfl).2.2 "X"
      (List.mem_cons_self _ _)⟩

/-- C5: the end-to-end scenario — `include.item_types = "Movie"`,
`include.years = "2000-2010"`, `limit = 2`, descending `ProductionYear`
sort, five movies with years 1999/2001/2005/2010/2015 — compiles to the
three in-range ids (the limit is NOT applied at compile time) and sorting
returns exactly the 2010 and 2005 movies in that order (the limit is
applied to the sorted sequence). -/
theorem c5_limit_applied_after_sort :
    (compile dC5 srcC5).map (fun p => p.item_ids.length) = .ok 3 ∧
    (compile dC5 srcC5).bind (fun p => p.sort srcC5) = .ok ["m2010", "m2005"] :=
  ⟨rfl, rfl⟩

/-- C6: for every closed range whose lower bound is greater than its upper
bound under the domain ordering, `contains` succeeds with `true` exactly
when `lower <= value` or `value <= upper` (wrap-around); and the numeric
range parsed from `"22-04"` contains 23, 2 and both bounds but not 12. -/
theorem c6_wraparound_contains :
    (∀ l u v : Value, vgt l u = .ok true →
      (Interval.contains (.closed l u) v = .ok true ↔
        vle l v = .ok true ∨ vle v u = .ok true)) ∧
    parseInterval "22-04" = .ok (.closed (.num 22) (.num 4)) ∧
    Interval.contains (.closed (.num 22) (.num 4)) (.num 23) = .ok true ∧
    Interval.contains (.closed (.num 22) (.num 4)) (.num 2) = .ok true ∧
    Interval.contains (.closed (.num 22) (.num 4)) (.num 12) = .ok false ∧
    Interval.contains (.closed (.num 22) (.num 4)) (.num 22) = .ok true ∧
    Interval.contains (.closed (.num 22) (.num 4)) (.num 4) = .ok true := by
  refine ⟨fun l u v h => ?_, by decide, by decide, by decide, by decide, by decide, by decide⟩
  cases l with
  | num a =>
    cases u with
    | num b =>
      simp only [vgt] at h
      injection h with h
      cases v with
      | num c =>
        simp only [Interval.contains, vgt, h, exc_bind_ok, vle]
        by_cases h1 : a ≤ c <;> by_cases h2 : c ≤ b <;> simp [h1, h2]
      | str s => simp [Interval.contains, vgt, h, exc_bind_ok, exc_bind_error, vle]
      | date dd => simp [Interval.contains, vgt, h, exc_bind_ok, exc_bind_error, vle]
    | str b => simp only [vgt] at h; cases h
    | date b => simp only [vgt] at h; cases h
  | str a =>
    cases u with
    | num b => simp only [vgt] at h; cases h
    | str b =>
      simp only [vgt] at h
      injection h with h
      cases v with
      | num c =>
        simp [Interval.contains, vgt, String.toList, h, exc_bind_ok, exc_bind_error, vle]
      | str c =>
        simp only [Interval.contains, vgt, String.toList, h, exc_bind_ok, vle] at h ⊢
        by_cases h1 : strLT c.data a.data <;> by_cases h2 : strLT b.data c.data <;>
          simp [h1, h2]
      | date dd =>
        simp [Interval.contains, vgt, String.toList, h, exc_bind_ok, exc_bind_error, vle]
    | date b => simp only [vgt] at h; cases h
  | date a =>
    cases u with
    | num b => simp only [vgt] at h; cases h
    | str b => simp only [vgt] at h; cases h
    | date b =>
      simp only [vgt] at h
      injection h with h
      cases v with
      | num c => simp [Interval.contains, vgt, h, exc_bind_ok, exc_bind_error, vle]
      | str c => simp [Interval.contains, vgt, h, exc_bind_ok, exc_bind_error, vle]
      | date c =>
        simp only [Interval.contains, vgt, h, exc_bind_ok, vle]
        by_cases h1 : PyDate.le a c <;> by_cases h2 : PyDate.le c b <;> simp [h1, h2]

/-- C6 witness: the wrap-around equivalence applied to the parsed `"22-04"`
range at value 23. -/
theorem c6_wraparound_contains_witness :
    vgt (.num 22) (.num 4) = .ok true ∧
    (Interval.contains (.closed (.num 22) (.num 4)) (.num 23) = .ok true ↔
      vle (.num 22) (.num 23) = .ok true ∨ vle (.num 23) (.num 4) = .ok true) :=
  ⟨by decide, c6_wraparound_contains.1 (.num 22) (.num 4) (.num 23) (by decide)⟩

/-- C7: for a non-empty rule list in which every rule evaluates without
raising, `get_selected` returns the first rule (in declared order) whose
conditions are satisfied, and the last rule when none is satisfied. -/
theorem c7_first_satisfied_else_last (cs : List Conditional) (env : Env)
    (lastC : Conditional) (hl : cs.getLast? = some lastC)
    (hok : ∀ c ∈ cs, evalOk (isTrue c env) = true) :
    getSelected cs env =
      .ok ((cs.find? (fun c => isOkTrue (isTrue c env))).getD lastC) := by
  simp only [getSelected, hl]
  rw [selectLoop_eq_find env cs hok, exc_bind_ok]

/-- C7 witness: two rules that never match select the last one. -/
theorem c7_first_satisfied_else_last_witness :
    ([condA, condB].getLast? = some condB) ∧
    (∀ c ∈ [condA, condB], evalOk (isTrue c envW) = true) ∧
    getSelected [condA, condB] envW = .ok condB := by
  have hok : ∀ c ∈ [condA, condB], evalOk (isTrue c envW) = true := by
    intro c hc
    rcases List.mem_cons.mp hc with rfl | hc
    · rfl
    rcases List.mem_cons.mp hc with rfl | hc
    · rfl
    cases hc
  refine ⟨rfl, hok, ?_⟩
  rw [c7_first_satisfied_else_last [condA, condB] envW condB rfl hok]
  rfl

/-- C8: sorting by `CriticRating` on an item lacking it but carrying
`CommunityRating = 50` gives lenient key 500 (community × 10) and strict
key 0; symmetrically the lenient `CommunityRating` key of an item carrying
only `CriticRating = r` is `r / 10`. -/
theorem c8_rating_fallback_keys (m : Item) :
    (m.CriticRating = none → m.CommunityRating = some 50 →
      lenientKey "CriticRating" m = .num 500 ∧ strictKey "CriticRating" m = .num 0) ∧
    (∀ r : Rat, m.CommunityRating = none → m.CriticRating = some r →
      lenientKey "CommunityRating" m = .num (r / 10)) := by
  constructor
  · intro h1 h2
    constructor
    · have e : lenientKey "CriticRating" m =
          (match m.CriticRating with
           | some r => ItemKey.num r
           | none => ItemKey.num (m.CommunityRating.getD 0 * 10)) := rfl
      rw [e, h1, h2]
      norm_num
    · have e : strictKey "CriticRating" m = .num (m.CriticRating.getD 0) := rfl
      rw [e, h1]
      rfl
  · intro r h1 h2
    have e : lenientKey "CommunityRating" m =
        (match m.CommunityRating with
         | some r => ItemKey.num r
         | none => ItemKey.num (m.CriticRating.getD 0 / 10)) := rfl
    rw [e, h1, h2]
    rfl

/-- C8 witness at the two concrete items. -/
theorem c8_rating_fallback_keys_witness :
    (itemR0.CriticRating = none ∧ itemR0.CommunityRating = some 50 ∧
      lenientKey "CriticRating" itemR0 = .num 500 ∧
      strictKey "CriticRating" itemR0 = .num 0) ∧
    (itemR1.CommunityRating = none ∧ itemR1.CriticRating = some 73 ∧
      lenientKey "CommunityRating" itemR1 = .num (73 / 10)) :=
  ⟨⟨rfl, rfl, ((c8_rating_fallback_keys itemR0).1 rfl rfl).1,
      ((c8_rating_fallback_keys itemR0).1 rfl rfl).2⟩,
    ⟨rfl, rfl, (c8_rating_fallback_keys itemR1).2 73 rfl rfl⟩⟩

/-- C9: a closed range whose bounds match different domain patterns fails
with a type error (`"5-abc"`), while same-pattern bounds succeed
(`"abc-xyz"` parses as an alphabetic closed range). -/
theorem c9_closed_domain_mismatch :
    parseInterval "5-abc" = .error .typeError ∧
    parseInterval "abc-xyz" = .ok (.closed (.str "abc") (.str "xyz")) := ⟨rfl, rfl⟩

/-- C10: with an empty selection-rule list `get_selected` raises
(`self.conditionals[-1]` indexes an empty list) instead of returning a
rule, for every environment. -/
theorem c10_empty_selection_raises :
    ∀ env : Env, getSelected [] env = .error .indexError := fun _ => rfl

end Listgen
